import Mathlib

/-!
Verification of the event-sourced persistence subsystem of the repository:
the append-only event log (`EventStore.storeEvent`), the projection engine
(`updateProjections`, `saveProjection`, the three registered projections,
the replay route), the snapshot listing route, and the circuit breaker
(`CircuitBreaker.call` / `onSuccess` / `onFailure`).

JavaScript values flowing through the system (event payloads, projection
snapshot data) are modelled by the inductive `JVal`; JS numbers are
modelled as integers (no float subtleties are exercised by the folds),
`undefined` is modelled by `JVal.jundef`, and the wall clock read by the
folds (`new Date()`) is an explicit `Clock` argument.

Each SQL statement is embedded with its behaviour against the schema that
`createTables` declares.  In particular, `saveProjection`'s
`INSERT ... ON CONFLICT (projection_name, aggregate_id)` finds no unique
index or constraint on those columns to act as arbiter — the schema has
only a plain index there — so PostgreSQL rejects the statement on every
execution (42P10) and, the error being swallowed by the function's own
`catch`, no projection snapshot row is ever written.
-/

/-- A JavaScript/JSON value as manipulated by the event store and folds. -/
inductive JVal where
  | jnull : JVal
  | jundef : JVal
  | jbool : Bool → JVal
  | jnum : Int → JVal
  | jstr : String → JVal
  | jarr : List JVal → JVal
  | jobj : List (String × JVal) → JVal

namespace JVal

/-- JS truthiness. Objects and arrays are always truthy. -/
def jTruthy : JVal → Bool
  | jnull => false
  | jundef => false
  | jbool b => b
  | jnum n => n != 0
  | jstr s => s != ""
  | jarr _ => true
  | jobj _ => true

/-- JS property access `v.k`: `undefined` when missing or not an object. -/
def jget : JVal → String → JVal
  | jobj fs, k => ((fs.find? (fun p => p.1 == k)).map (fun p => p.2)).getD jundef
  | _, _ => jundef

/-- JS optional chaining `v?.k` for a possibly-null base. -/
def jgetOpt : Option JVal → String → JVal
  | none, _ => jundef
  | some v, k => jget v k

/-- JS `a || b`. -/
def jsOr (a b : JVal) : JVal := if jTruthy a then a else b

/-- JS numeric coercion, restricted to the integral values the folds store. -/
def toNum : JVal → Int
  | jnum n => n
  | _ => 0

/-- Rendering of a value inside a template literal (used by the aggregate-id
extractors; only strings and numbers occur there in practice). -/
def jsStr : JVal → String
  | jstr s => s
  | jnum n => toString n
  | jnull => "null"
  | jundef => "undefined"
  | jbool b => toString b
  | jarr _ => "array"
  | jobj _ => "object"

/-- The fields of an object spread `{...v}`; null/undefined spread to nothing. -/
def fieldsOf : JVal → List (String × JVal)
  | jobj fs => fs
  | _ => []

def fieldsOfOpt : Option JVal → List (String × JVal)
  | none => []
  | some v => fieldsOf v

/-- Setting one key in an object literal: overrides in place when present
(JS keeps the original insertion position), else appends. -/
def setField (fs : List (String × JVal)) (k : String) (v : JVal) :
    List (String × JVal) :=
  if fs.any (fun p => p.1 == k) then
    fs.map (fun p => if p.1 == k then (k, v) else p)
  else fs ++ [(k, v)]

/-- A JS object literal `{...base, k1: v1, ..., kn: vn}`. -/
def objWith (base : Option JVal) (updates : List (String × JVal)) : JVal :=
  jobj (updates.foldl (fun fs kv => setField fs kv.1 kv.2) (fieldsOfOpt base))

/-- Elements of an array spread `[...v, x]`. -/
def jArrElems : JVal → List JVal
  | jarr xs => xs
  | _ => []

end JVal

open JVal

/-! ## Database rows and store state

The three logical tables created by `EventStore.createTables`, modelled as
lists of rows kept in physical (insertion) order.  `sequence_number` is a
`SERIAL` column, modelled by the monotone counter `nextSeq`. -/

/-- One row of the `events` table. -/
structure EventRow where
  id : String
  aggregateId : String
  aggregateType : String
  eventType : String
  eventVersion : Nat
  eventData : JVal
  metadata : JVal
  sequenceNumber : Nat

/-- One row of the `projections` table. -/
structure ProjRow where
  projectionName : String
  aggregateId : String
  data : JVal
  version : Nat
  lastEventId : String

/-- The durable state of the event store database. -/
structure Store where
  events : List EventRow
  projections : List ProjRow
  nextSeq : Nat

def emptyStore : Store := ⟨[], [], 1⟩

/-! ## Schema declarations of `EventStore.createTables`

The DDL string of `createTables`, transcribed declaration by declaration:
the primary keys of the three tables and the five `CREATE INDEX`
statements, none of which is `UNIQUE`. -/

structure IndexDef where
  table : String
  columns : List String
  unique : Bool
  deriving DecidableEq

/-- Primary keys declared by `createTables`. -/
def schemaPrimaryKeys : List (String × List String) :=
  [("events", ["id"]), ("snapshots", ["aggregate_id"]), ("projections", ["id"])]

/-- The five indexes declared by `createTables`; all are plain
`CREATE INDEX`, none is `CREATE UNIQUE INDEX`. -/
def schemaIndexes : List IndexDef :=
  [⟨"events", ["aggregate_id", "aggregate_type"], false⟩,
   ⟨"events", ["event_type"], false⟩,
   ⟨"events", ["timestamp"], false⟩,
   ⟨"events", ["sequence_number"], false⟩,
   ⟨"projections", ["projection_name", "aggregate_id"], false⟩]

/-- All column sets of `table` on which the schema enforces uniqueness:
its primary key plus any unique indexes. -/
def uniqueConstraintsOn (table : String) : List (List String) :=
  ((schemaPrimaryKeys.filter (fun p => p.1 == table)).map (fun p => p.2)) ++
    ((schemaIndexes.filter (fun i => i.table == table && i.unique)).map
      (fun i => i.columns))

/-! ## Aggregate id/type resolution (`extractAggregateId`, `extractAggregateType`) -/

/-- `EventStore.extractAggregateId`: the per-event-type extraction table;
unrecognized event types resolve to `"unknown"`. -/
def extractAggregateId (eventType : String) (d : JVal) : String :=
  match eventType with
  | "user.created" => "user-" ++ jsStr (jget d "userId")
  | "user.login" => "user-" ++ jsStr (jget d "userId")
  | "order.created" => "order-" ++ jsStr (jget d "orderId")
  | "order.status_changed" => "order-" ++ jsStr (jget d "orderId")
  | "order.cancelled" => "order-" ++ jsStr (jget d "orderId")
  | "payment.confirmed" => "payment-" ++ jsStr (jget d "orderId")
  | "payment.failed" => "payment-" ++ jsStr (jget d "orderId")
  | "inventory.reserve" => "product-" ++ jsStr (jget d "productId")
  | "inventory.restore" => "product-" ++ jsStr (jget d "productId")
  | "notification.sent" => "notification-" ++ jsStr (jget d "notificationId")
  | "notification.failed" => "notification-" ++ jsStr (jget d "notificationId")
  | _ => "unknown"

/-- `EventStore.extractAggregateType`. -/
def extractAggregateType (eventType : String) : String :=
  match eventType with
  | "user.created" => "User"
  | "user.login" => "User"
  | "order.created" => "Order"
  | "order.status_changed" => "Order"
  | "order.cancelled" => "Order"
  | "payment.confirmed" => "Payment"
  | "payment.failed" => "Payment"
  | "inventory.reserve" => "Product"
  | "inventory.restore" => "Product"
  | "notification.sent" => "Notification"
  | "notification.failed" => "Notification"
  | _ => "Unknown"

/-! ## Projection-table primitives -/

/-- First row of the `projections` table matching
`(projection_name, aggregate_id)` (the `WHERE` clause of `getProjection`
and the `ON CONFLICT` target of `saveProjection`). -/
def findRow (rows : List ProjRow) (name aggId : String) : Option ProjRow :=
  rows.find? (fun r => r.projectionName == name && r.aggregateId == aggId)

/-- `EventStore.getProjection`: the `data` column of the matching row, or
null when absent. -/
def getProjection (s : Store) (name aggId : String) : Option JVal :=
  (findRow s.projections name aggId).map (fun r => r.data)

/-- The upsert that `saveProjection`'s
`INSERT ... ON CONFLICT (projection_name, aggregate_id) DO UPDATE SET
data = $4, version = projections.version + 1, last_event_id = $5`
specifies when an arbiter index exists: update the matching row in
place, or append a fresh row with version 1. -/
def upsertProj (name aggId : String) (v : JVal) (eid : String) :
    List ProjRow → List ProjRow
  | [] => [⟨name, aggId, v, 1, eid⟩]
  | r :: rs =>
    if r.projectionName == name && r.aggregateId == aggId then
      { r with data := v, version := r.version + 1, lastEventId := eid } :: rs
    else r :: upsertProj name aggId v eid rs

/-- Whether the declared schema lets PostgreSQL infer an arbiter for
`ON CONFLICT (projection_name, aggregate_id)`: that requires a unique
index or constraint on exactly those columns.  `createTables` declares
only the plain index `idx_projections_name_aggregate`, and the table's
sole unique key is the primary key `id`, so no arbiter exists. -/
def projUpsertHasArbiter : Bool :=
  (uniqueConstraintsOn "projections").contains ["projection_name", "aggregate_id"]

/-- `EventStore.saveProjection`: the insert statement is executed against
the declared schema.  With an arbiter it would perform the specified
upsert; without one — the case here — PostgreSQL rejects the statement
(42P10) before writing anything, the function's own `catch` merely logs,
and the store is returned unchanged. -/
def saveProjection (name aggId : String) (v : JVal) (eid : String)
    (s : Store) : Store :=
  if projUpsertHasArbiter then
    { s with projections := upsertProj name aggId v eid s.projections }
  else s

/-- The `GET /projections/:projectionName` route:
`SELECT ... FROM projections WHERE projection_name = $1` — note the query
has no `ORDER BY` clause, so rows come back in table order. -/
def listProjections (name : String) (s : Store) : List ProjRow :=
  s.projections.filter (fun r => r.projectionName == name)

/-- All snapshot rows of one projection, in table order. -/
def snapshotsOf (name : String) (s : Store) : List ProjRow :=
  s.projections.filter (fun r => r.projectionName == name)

/-- Clearing the snapshot store (the caller-side preparation step assumed
by the replay round-trip law). -/
def clearSnapshots (s : Store) : Store := { s with projections := [] }

/-! ## The registered projections (`EventStore.setupProjections`)

Each `project` closure in the source reads its previous snapshot through
`this.getProjection` and reads the wall clock through `new Date()`.  Both
effects are made explicit: the clock is a `Clock` value and the snapshot
read is performed by a thin `...Project` wrapper, while the remainder of
each closure is the pure `...Apply` function on the fetched snapshot. -/

/-- The wall clock as observed by a fold: `new Date().toISOString()` and
the comparison `new Date(ts).toDateString() === new Date().toDateString()`. -/
structure Clock where
  nowIso : String
  isToday : JVal → Bool

/-- Body of the `user-summary` projection after the `getProjection` read. -/
def userSummaryApply (existing : Option JVal) (eventType : String) (d : JVal)
    (c : Clock) : Option JVal :=
  match eventType with
  | "user.created" =>
    some (jobj
      [("userId", jget d "userId"),
       ("email", jget d "email"),
       ("firstName", jget d "firstName"),
       ("lastName", jget d "lastName"),
       ("createdAt", jsOr (jget d "timestamp") (jstr c.nowIso)),
       ("lastLogin", jnull),
       ("loginCount", jnum 0)])
  | "user.login" =>
    some (objWith existing
      [("lastLogin", jget d "timestamp"),
       ("loginCount", jnum (toNum (jsOr (jgetOpt existing "loginCount") (jnum 0)) + 1))])
  | _ => none

/-- The `user-summary` `project` closure. -/
def userSummaryProject (eventType : String) (d : JVal) (aggregateId : String)
    (s : Store) (c : Clock) : Option JVal :=
  userSummaryApply (getProjection s "user-summary" aggregateId) eventType d c

/-- Body of the `order-summary` projection after the `getProjection` read.
It never reads the clock. -/
def orderSummaryApply (existing : Option JVal) (eventType : String) (d : JVal) :
    Option JVal :=
  match eventType with
  | "order.created" =>
    some (jobj
      [("orderId", jget d "orderId"),
       ("userId", jget d "userId"),
       ("totalAmount", jget d "totalAmount"),
       ("status", jstr "pending"),
       ("items", jget d "items"),
       ("createdAt", jget d "timestamp"),
       ("statusHistory",
        jarr [jobj [("status", jstr "pending"), ("timestamp", jget d "timestamp")]])])
  | "order.status_changed" =>
    some (objWith existing
      [("status", jget d "status"),
       ("statusHistory",
        jarr (jArrElems (jsOr (jgetOpt existing "statusHistory") (jarr [])) ++
          [jobj [("status", jget d "status"), ("timestamp", jget d "timestamp")]]))])
  | "order.cancelled" =>
    some (objWith existing
      [("status", jstr "cancelled"),
       ("cancelledAt", jget d "timestamp"),
       ("statusHistory",
        jarr (jArrElems (jsOr (jgetOpt existing "statusHistory") (jarr [])) ++
          [jobj [("status", jstr "cancelled"), ("timestamp", jget d "timestamp")]]))])
  | _ => none

/-- The `order-summary` `project` closure (the clock argument is unused,
mirroring the source, whose closure never calls `new Date()`). -/
def orderSummaryProject (eventType : String) (d : JVal) (aggregateId : String)
    (s : Store) (_c : Clock) : Option JVal :=
  orderSummaryApply (getProjection s "order-summary" aggregateId) eventType d

/-- The default analytics object `{totalUsers: 0, ..., lastUpdated: now}`. -/
def analyticsDefault (c : Clock) : JVal :=
  jobj [("totalUsers", jnum 0), ("totalOrders", jnum 0), ("totalRevenue", jnum 0),
        ("ordersToday", jnum 0), ("revenueToday", jnum 0),
        ("lastUpdated", jstr c.nowIso)]

/-- Body of the `analytics` projection after the `getProjection` read:
`existing = (await getProjection('analytics', 'global')) || default`. -/
def analyticsApply (fetched : Option JVal) (eventType : String) (d : JVal)
    (c : Clock) : Option JVal :=
  let existing := match fetched with
    | some v => if jTruthy v then v else analyticsDefault c
    | none => analyticsDefault c
  let isToday := c.isToday (jget d "timestamp")
  match eventType with
  | "user.created" =>
    some (objWith (some existing)
      [("totalUsers", jnum (toNum (jget existing "totalUsers") + 1)),
       ("lastUpdated", jstr c.nowIso)])
  | "order.created" =>
    some (objWith (some existing)
      [("totalOrders", jnum (toNum (jget existing "totalOrders") + 1)),
       ("ordersToday",
        if isToday then jnum (toNum (jget existing "ordersToday") + 1)
        else jget existing "ordersToday"),
       ("lastUpdated", jstr c.nowIso)])
  | "payment.confirmed" =>
    some (objWith (some existing)
      [("totalRevenue", jnum (toNum (jget existing "totalRevenue") + toNum (jget d "amount"))),
       ("revenueToday",
        if isToday then jnum (toNum (jget existing "revenueToday") + toNum (jget d "amount"))
        else jget existing "revenueToday"),
       ("lastUpdated", jstr c.nowIso)])
  | _ => none

/-- The `analytics` `project` closure.  Its signature in the source is
`(eventType, eventData)`: the aggregate id passed by `updateProjections`
is ignored, and the previous state is always read from the row keyed
`('analytics', 'global')`. -/
def analyticsProject (eventType : String) (d : JVal) (_aggregateId : String)
    (s : Store) (c : Clock) : Option JVal :=
  analyticsApply (getProjection s "analytics" "global") eventType d c

/-- A registered projection: its name, the event types it consumes, and
its `project` closure. -/
structure Projection where
  name : String
  eventTypes : List String
  project : String → JVal → String → Store → Clock → Option JVal

def userSummaryP : Projection :=
  ⟨"user-summary", ["user.created", "user.login"], userSummaryProject⟩

def orderSummaryP : Projection :=
  ⟨"order-summary", ["order.created", "order.status_changed", "order.cancelled"],
   orderSummaryProject⟩

def analyticsP : Projection :=
  ⟨"analytics", ["order.created", "payment.confirmed", "user.created"],
   analyticsProject⟩

/-- The projection registry, in `Map` insertion order. -/
def registry : List Projection := [userSummaryP, orderSummaryP, analyticsP]

/-! ## `EventStore.updateProjections` and `EventStore.storeEvent`

`updateProjections` loops over the registry; each iteration is wrapped in
its own `try/catch`, so a failure while updating one projection is logged
and skipped without affecting the others.  The failure oracle `fail` says
which projections' updates raise; `noFail` is the failure-free run. -/

def noFail : String → Bool := fun _ => false

/-- One iteration of the `updateProjections` loop.  When the oracle says
the iteration raises, the `catch` swallows the error and the store is
left untouched; otherwise `project` is invoked and a truthy result is
handed to `saveProjection`
(`if (projectedData) { await saveProjection(...) }`). -/
def projStep (fail : String → Bool) (p : Projection) (c : Clock)
    (eventType : String) (d : JVal) (eventId aggregateId : String)
    (s : Store) : Store :=
  if p.eventTypes.contains eventType then
    if fail p.name then s
    else
      match p.project eventType d aggregateId s c with
      | some v =>
        if jTruthy v then saveProjection p.name aggregateId v eventId s else s
      | none => s
  else s

/-- `EventStore.updateProjections` (the `aggregateType` parameter is
accepted and unused, as in the source). -/
def updateProjections (fail : String → Bool) (c : Clock) (eventType : String)
    (d : JVal) (eventId aggregateId : String) (_aggregateType : String)
    (s : Store) : Store :=
  registry.foldl (fun st p => projStep fail p c eventType d eventId aggregateId st) s

/-- The `SELECT COALESCE(MAX(event_version), 0)` read of `storeEvent`. -/
def maxVersionOf (s : Store) (aggId aggType : String) : Nat :=
  ((s.events.filter (fun e => e.aggregateId == aggId && e.aggregateType == aggType)).map
    (fun e => e.eventVersion)).foldr max 0

/-- `nextVersion = max + 1` as computed by `storeEvent`. -/
def readNextVersion (s : Store) (aggId aggType : String) : Nat :=
  maxVersionOf s aggId aggType + 1

/-- The metadata actually stored:
`{...metadata, source: 'message-broker', correlationId: metadata.id}`. -/
def storedMeta (metadata : JVal) : JVal :=
  objWith (some metadata)
    [("source", jstr "message-broker"), ("correlationId", jget metadata "id")]

/-- The `INSERT INTO events ...` of `storeEvent`: a plain append — the
statement has no `ON CONFLICT` clause and the schema enforces no
uniqueness beyond the primary key `id`, so nothing rejects a duplicate
`(aggregate_id, aggregate_type, event_version)`.  `sequence_number` is
assigned by the `SERIAL` counter. -/
def insertEvent (s : Store) (eventId aggId aggType eventType : String)
    (version : Nat) (d meta : JVal) : Store :=
  { s with
    events := s.events ++ [⟨eventId, aggId, aggType, eventType, version, d, meta, s.nextSeq⟩],
    nextSeq := s.nextSeq + 1 }

/-- The inputs of one `storeEvent` call: the broker-delivered event plus
the nondeterministic inputs drawn inside the call (the fresh uuid and the
wall clock), made explicit. -/
structure AppendInput where
  eventId : String
  eventType : String
  data : JVal
  metadata : JVal
  clock : Clock

inductive DbError where
  | uniqueViolation : DbError
  | unavailable : DbError
  deriving DecidableEq

/-- The `try` block of `storeEvent`: resolve the aggregate, read the max
version, insert the event, then drive the projections.  `insertErr`
injects a storage error at the insert (e.g. a constraint rejection). -/
def storeEventBody (inp : AppendInput) (fail : String → Bool)
    (insertErr : Option DbError) (s : Store) : Except DbError Store :=
  let aggId := extractAggregateId inp.eventType inp.data
  let aggType := extractAggregateType inp.eventType
  let nextVersion := readNextVersion s aggId aggType
  match insertErr with
  | some e => .error e
  | none =>
    .ok (updateProjections fail inp.clock inp.eventType inp.data inp.eventId
          aggId aggType
          (insertEvent s inp.eventId aggId aggType inp.eventType nextVersion
            inp.data (storedMeta inp.metadata)))

/-- `EventStore.storeEvent` with its surrounding `catch`: the catch body
is only `console.error(...)`, so the call always completes normally and
the second component — the error visible to the caller — is always
`none`. -/
def storeEventCaught (inp : AppendInput) (fail : String → Bool)
    (insertErr : Option DbError) (s : Store) : Store × Option DbError :=
  match storeEventBody inp fail insertErr s with
  | .ok s₁ => (s₁, none)
  | .error _ => (s, none)

/-- `EventStore.storeEvent` on the error-free storage path. -/
def storeEvent (inp : AppendInput) (fail : String → Bool) (s : Store) : Store :=
  (storeEventCaught inp fail none s).1

/-- A sequence of appends applied to the empty store. -/
def runAppends (L : List AppendInput) : Store :=
  L.foldl (fun s i => storeEvent i noFail s) emptyStore

/-! ## The replay route (`POST /projections/:projectionName/replay`) -/

/-- The replay query:
`SELECT * FROM events WHERE sequence_number >= $1 AND event_type = ANY($2)
ORDER BY sequence_number ASC`.  The events table is only ever appended to
with the monotone `SERIAL` counter, so the list is already in ascending
sequence order and the query is a filter. -/
def replayEvents (p : Projection) (fromSeq : Nat) (s : Store) : List EventRow :=
  s.events.filter
    (fun e => decide (fromSeq ≤ e.sequenceNumber) && p.eventTypes.contains e.eventType)

/-- One iteration of the replay loop: fold the stored event and upsert a
truthy result, exactly as `updateProjections` would. -/
def replayStep (p : Projection) (c : Clock) (st : Store) (e : EventRow) : Store :=
  match p.project e.eventType e.eventData e.aggregateId st c with
  | some v =>
    if jTruthy v then saveProjection p.name e.aggregateId v e.id st else st
  | none => st

/-- The replay route body for an existing projection `p`. -/
def replayProjection (p : Projection) (fromSeq : Nat) (c : Clock) (s : Store) :
    Store :=
  (replayEvents p fromSeq s).foldl (replayStep p c) s

/-! ## The circuit breaker (`shared/circuit-breaker.js`)

`CircuitBreaker.call` first runs the OPEN gate (reject while
`Date.now() < nextAttempt`, otherwise transition to HALF_OPEN), then
awaits the wrapped request and dispatches to `onSuccess`/`onFailure`.
Each call is modelled with one time `now` and one outcome `ok` of the
wrapped operation; a `.rejected` result means the wrapped operation was
never invoked. -/

inductive CBState where
  | closed : CBState
  | opened : CBState
  | halfOpen : CBState
  deriving DecidableEq

structure CircuitBreaker where
  state : CBState
  failureCount : Nat
  successCount : Nat
  nextAttempt : Nat
  failureThreshold : Nat
  successThreshold : Nat
  timeout : Nat
  deriving DecidableEq

namespace CircuitBreaker

/-- The constructor defaults: `failureThreshold || 5`,
`successThreshold || 2`, `timeout || 60000`, `nextAttempt = Date.now()`. -/
def init (now : Nat) : CircuitBreaker :=
  ⟨.closed, 0, 0, now, 5, 2, 60000⟩

/-- `CircuitBreaker.onSuccess`. -/
def onSuccess (b : CircuitBreaker) : CircuitBreaker :=
  let b := { b with failureCount := 0 }
  if b.state = .halfOpen then
    let b := { b with successCount := b.successCount + 1 }
    if b.successThreshold ≤ b.successCount then
      { b with state := .closed, successCount := 0 }
    else b
  else b

/-- `CircuitBreaker.onFailure` (the error is re-thrown to the caller
afterwards; the call's result is `.failed`). -/
def onFailure (b : CircuitBreaker) (now : Nat) : CircuitBreaker :=
  let b := { b with failureCount := b.failureCount + 1 }
  if b.state = .halfOpen ∨ b.failureThreshold ≤ b.failureCount then
    { b with state := .opened, nextAttempt := now + b.timeout }
  else b

/-- The OPEN gate at the top of `call`: `none` models the thrown
`CircuitOpen` error; otherwise the possibly-transitioned breaker in which
the wrapped request is then attempted. -/
def gate (b : CircuitBreaker) (now : Nat) : Option CircuitBreaker :=
  if b.state = .opened then
    if now < b.nextAttempt then none
    else some { b with state := .halfOpen, successCount := 0 }
  else some b

inductive CallOutcome where
  | rejected : CallOutcome
  | succeeded : CallOutcome
  | failed : CallOutcome
  deriving DecidableEq

/-- `CircuitBreaker.call`: `ok` is whether the wrapped request resolves. -/
def call (b : CircuitBreaker) (now : Nat) (ok : Bool) :
    CallOutcome × CircuitBreaker :=
  match gate b now with
  | none => (.rejected, b)
  | some b₁ => if ok then (.succeeded, onSuccess b₁) else (.failed, onFailure b₁ now)

/-- A run of consecutive failed calls, at the given times. -/
def failN (b : CircuitBreaker) (ts : List Nat) : CircuitBreaker :=
  ts.foldl (fun b t => (call b t false).2) b

/-- A run of consecutive successful calls, at the given times. -/
def succN (b : CircuitBreaker) (ts : List Nat) : CircuitBreaker :=
  ts.foldl (fun b t => (call b t true).2) b

end CircuitBreaker

/-! ## Concrete scenario data -/

/-- A `Date`-free clock for concrete runs. -/
def clockAt (t : String) : Clock := ⟨t, fun _ => false⟩

/-- The interleaving of two concurrent `storeEvent` calls for the same
aggregate in which both version reads (`SELECT COALESCE(MAX(...), 0)`)
execute before either insert: both compute `nextVersion = 0 + 1 = 1` and,
with no uniqueness constraint to reject the loser, both inserts commit. -/
def raceTwoAppends : Store :=
  let d₁ : JVal := jobj [("orderId", jnum 1), ("totalAmount", jnum 5)]
  let d₂ : JVal := jobj [("orderId", jnum 1), ("status", jstr "confirmed")]
  let v₁ := readNextVersion emptyStore "order-1" "Order"
  let v₂ := readNextVersion emptyStore "order-1" "Order"
  let s₁ := insertEvent emptyStore "idA" "order-1" "Order" "order.created" v₁ d₁ (jobj [])
  insertEvent s₁ "idB" "order-1" "Order" "order.status_changed" v₂ d₂ (jobj [])

/-- The per-aggregate version column, in insertion order. -/
def versionsOf (s : Store) (aggId aggType : String) : List Nat :=
  ((s.events.filter (fun e => e.aggregateId == aggId && e.aggregateType == aggType)).map
    (fun e => e.eventVersion))

/-- A concrete `user.created` payload. -/
def userPayload : JVal :=
  jobj [("userId", jnum 7), ("email", jstr "e@x"), ("firstName", jstr "Ada"),
        ("lastName", jstr "L"), ("timestamp", jstr "T0")]

/-- A concrete `user.created` append observed at wall-clock time `T1`. -/
def userInput : AppendInput := ⟨"e1", "user.created", userPayload, jobj [], clockAt "T1"⟩

/-- A concrete `order.created` payload. -/
def orderPayload : JVal :=
  jobj [("orderId", jnum 3), ("userId", jnum 7), ("totalAmount", jnum 50),
        ("items", jarr []), ("timestamp", jstr "T0")]

/-- A concrete `order.created` append observed at wall-clock time `T1`. -/
def orderInput : AppendInput := ⟨"e2", "order.created", orderPayload, jobj [], clockAt "T1"⟩

/-- A failure oracle under which every projection update except
`order-summary`'s raises. -/
def failAllButOrderSummary : String → Bool := fun n => !(n == "order-summary")

/-- A failure oracle under which every projection update raises. -/
def failAll : String → Bool := fun _ => true

/-- A snapshot-store state holding two rows of projection `"p"`, the row
for aggregate `"b"` preceding the row for aggregate `"a"` in table order
(the claim quantifies over every state of the snapshot store). -/
def twoRowStore : Store :=
  ⟨[], [⟨"p", "b", jnum 1, 1, "e1"⟩, ⟨"p", "a", jnum 2, 1, "e2"⟩], 1⟩

/-- An OPEN breaker (defaults, five recorded failures) whose retry time is
`nextAttempt = 100`. -/
def openBreaker : CircuitBreaker := ⟨.opened, 5, 0, 100, 5, 2, 60000⟩

/-- A HALF_OPEN breaker with defaults and zeroed counters. -/
def halfOpenBreaker : CircuitBreaker := ⟨.halfOpen, 0, 0, 100, 5, 2, 60000⟩

/-! ## Supporting lemmas: the projection write path never lands

Because the declared schema offers no arbiter for
`ON CONFLICT (projection_name, aggregate_id)`, `saveProjection` leaves
the store unchanged, and so do the projection loop and the replay loop. -/

theorem saveProjection_noop (name aggId : String) (v : JVal) (eid : String)
    (s : Store) : saveProjection name aggId v eid s = s := rfl

theorem projStep_noop (fail : String → Bool) (p : Projection) (c : Clock)
    (et : String) (d : JVal) (eid aggId : String) (s : Store) :
    projStep fail p c et d eid aggId s = s := by
  unfold projStep
  split
  · split
    · rfl
    · split
      · split
        · exact saveProjection_noop _ _ _ _ _
        · rfl
      · rfl
  · rfl

/-- Unfolding of the three-projection loop. -/
theorem updateProjections_unfold (fail : String → Bool) (c : Clock)
    (et : String) (d : JVal) (eid agg aggType : String) (s : Store) :
    updateProjections fail c et d eid agg aggType s =
      projStep fail analyticsP c et d eid agg
        (projStep fail orderSummaryP c et d eid agg
          (projStep fail userSummaryP c et d eid agg s)) := rfl

theorem updateProjections_noop (fail : String → Bool) (c : Clock)
    (et : String) (d : JVal) (eid aggId aggType : String) (s : Store) :
    updateProjections fail c et d eid aggId aggType s = s := by
  rw [updateProjections_unfold, projStep_noop, projStep_noop, projStep_noop]

/-- Definitional unfolding of the error-free `storeEvent` path. -/
theorem storeEvent_unfold (inp : AppendInput) (fl : String → Bool) (s : Store) :
    storeEvent inp fl s =
      updateProjections fl inp.clock inp.eventType inp.data inp.eventId
        (extractAggregateId inp.eventType inp.data)
        (extractAggregateType inp.eventType)
        (insertEvent s inp.eventId (extractAggregateId inp.eventType inp.data)
          (extractAggregateType inp.eventType) inp.eventType
          (readNextVersion s (extractAggregateId inp.eventType inp.data)
            (extractAggregateType inp.eventType))
          inp.data (storedMeta inp.metadata)) := rfl

theorem storeEvent_projections (inp : AppendInput) (fl : String → Bool)
    (s : Store) : (storeEvent inp fl s).projections = s.projections := by
  rw [storeEvent_unfold, updateProjections_noop]
  rfl

theorem run_projections (L : List AppendInput) (s : Store) :
    (L.foldl (fun st i => storeEvent i noFail st) s).projections =
      s.projections := by
  induction L generalizing s with
  | nil => rfl
  | cons i L ih => rw [List.foldl_cons, ih, storeEvent_projections]

theorem replayStep_noop (p : Projection) (c : Clock) (st : Store)
    (e : EventRow) : replayStep p c st e = st := by
  unfold replayStep
  split
  · split
    · exact saveProjection_noop _ _ _ _ _
    · rfl
  · rfl

theorem replayProjection_noop (p : Projection) (fromSeq : Nat) (c : Clock)
    (s : Store) : replayProjection p fromSeq c s = s := by
  unfold replayProjection
  generalize replayEvents p fromSeq s = evts
  induction evts generalizing s with
  | nil => rfl
  | cons e evts ih => rw [List.foldl_cons, replayStep_noop]; exact ih s

/-- The `order-summary` fold is a function of its previous snapshot alone:
it also ignores the wall clock. -/
theorem orderSummaryProject_frame (et : String) (d : JVal) (aggId : String)
    (s s₂ : Store) (c c₂ : Clock)
    (h : getProjection s "order-summary" aggId = getProjection s₂ "order-summary" aggId) :
    orderSummaryProject et d aggId s c = orderSummaryProject et d aggId s₂ c₂ := by
  unfold orderSummaryProject
  rw [h]

/-! ## Supporting lemmas: event versions -/

theorem maxVersionOf_eq_foldr (s : Store) (a t : String) :
    maxVersionOf s a t = (versionsOf s a t).foldr max 0 := rfl

theorem versionsOf_updateProjections (fail : String → Bool) (c : Clock)
    (et : String) (d : JVal) (eid aggId aggType : String) (s : Store)
    (a t : String) :
    versionsOf (updateProjections fail c et d eid aggId aggType s) a t =
      versionsOf s a t := by
  rw [updateProjections_noop]

theorem versionsOf_insertEvent (s : Store) (eid aggId aggType et : String)
    (ver : Nat) (d m : JVal) (a t : String) :
    versionsOf (insertEvent s eid aggId aggType et ver d m) a t =
      versionsOf s a t ++ (if aggId == a && aggType == t then [ver] else []) := by
  unfold versionsOf insertEvent
  simp only [List.filter_append, List.map_append]
  cases h : (aggId == a && aggType == t) <;> simp [List.filter_cons, h]

theorem versionsOf_storeEvent (inp : AppendInput) (fail : String → Bool)
    (s : Store) (a t : String) :
    versionsOf (storeEvent inp fail s) a t =
      versionsOf s a t ++
        (if extractAggregateId inp.eventType inp.data == a &&
            extractAggregateType inp.eventType == t then
          [readNextVersion s (extractAggregateId inp.eventType inp.data)
            (extractAggregateType inp.eventType)]
         else []) := by
  unfold storeEvent storeEventCaught storeEventBody
  simp only []
  rw [versionsOf_updateProjections, versionsOf_insertEvent]

theorem foldr_max_range'_succ (s n : Nat) :
    (List.range' (s + 1) n).foldr max 0 = if n = 0 then 0 else s + n := by
  induction n generalizing s with
  | zero => rfl
  | succ n ih =>
    have hc : List.range' (s + 1) (n + 1) = (s + 1) :: List.range' (s + 2) n := by
      simpa using List.range'_succ (s + 1) n 1
    rw [hc, List.foldr_cons, ih (s + 1)]
    rcases Nat.eq_zero_or_pos n with h | h
    · subst h; simp
    · simp only [Nat.pos_iff_ne_zero.mp h, if_false, if_neg (Nat.succ_ne_zero n)]
      omega

theorem foldr_max_range'_one (n : Nat) : (List.range' 1 n).foldr max 0 = n := by
  have := foldr_max_range'_succ 0 n
  rcases Nat.eq_zero_or_pos n with h | h
  · subst h; rfl
  · simpa [Nat.pos_iff_ne_zero.mp h] using this

theorem range'_one_concat (n : Nat) :
    List.range' 1 n ++ [n + 1] = List.range' 1 (n + 1) := by
  have := @List.range'_concat 1 1 n
  simp only [one_mul] at this
  rw [this, Nat.add_comm 1 n]

/-- One append preserves the gapless-versions invariant. -/
theorem storeEvent_versions_inv (inp : AppendInput) (s : Store)
    (hs : ∀ a t, versionsOf s a t = List.range' 1 (versionsOf s a t).length) :
    ∀ a t, versionsOf (storeEvent inp noFail s) a t =
      List.range' 1 (versionsOf (storeEvent inp noFail s) a t).length := by
  intro a t
  rw [versionsOf_storeEvent]
  cases h : (extractAggregateId inp.eventType inp.data == a &&
      extractAggregateType inp.eventType == t) with
  | false => simpa using hs a t
  | true =>
    have h1 : extractAggregateId inp.eventType inp.data = a :=
      beq_iff_eq.mp ((Bool.and_eq_true _ _).mp h).1
    have h2 : extractAggregateType inp.eventType = t :=
      beq_iff_eq.mp ((Bool.and_eq_true _ _).mp h).2
    obtain ⟨n, hn⟩ : ∃ n, versionsOf s a t = List.range' 1 n := ⟨_, hs a t⟩
    simp only [if_true, h1, h2]
    unfold readNextVersion
    rw [maxVersionOf_eq_foldr, hn, foldr_max_range'_one, range'_one_concat]
    simp

theorem c1_aux (L : List AppendInput) (s : Store)
    (hs : ∀ a t, versionsOf s a t = List.range' 1 (versionsOf s a t).length) :
    ∀ a t, versionsOf (L.foldl (fun st i => storeEvent i noFail st) s) a t =
      List.range' 1
        (versionsOf (L.foldl (fun st i => storeEvent i noFail st) s) a t).length := by
  induction L generalizing s with
  | nil => exact hs
  | cons i L ih => exact ih (storeEvent i noFail s) (storeEvent_versions_inv i s hs)

/-! ## Claim C1 -/

/-- Claim C1: for every fixed `(aggregateId, aggregateType)`, after any
sequence of `storeEvent` calls the event versions present for that
aggregate are exactly `1, 2, …, N` in order — no gaps, no duplicates —
and each append assigns version `max existing version + 1`, which is `1`
when the aggregate has no events (`COALESCE(MAX(..), 0) + 1`). -/
theorem c1_append_versions_gapless :
    (∀ (L : List AppendInput) (a t : String),
      versionsOf (runAppends L) a t =
        List.range' 1 (versionsOf (runAppends L) a t).length) ∧
    (∀ (inp : AppendInput) (fail : String → Bool) (s : Store),
      versionsOf (storeEvent inp fail s)
          (extractAggregateId inp.eventType inp.data)
          (extractAggregateType inp.eventType) =
        versionsOf s (extractAggregateId inp.eventType inp.data)
            (extractAggregateType inp.eventType) ++
          [maxVersionOf s (extractAggregateId inp.eventType inp.data)
              (extractAggregateType inp.eventType) + 1]) := by
  constructor
  · intro L a t
    exact c1_aux L emptyStore (fun _ _ => rfl) a t
  · intro inp fail s
    rw [versionsOf_storeEvent]
    simp [readNextVersion]

/-! ## Claim C2 -/

/-- Claim C2 is false on this code.  Counterexample: interleave two
appends for aggregate `("order-1", "Order")` so that both
`SELECT COALESCE(MAX(event_version), 0)` reads run before either insert —
both compute `nextVersion = 1`, and both inserts commit, leaving versions
`[1, 1]`: `createTables` declares no uniqueness constraint on
`(aggregate_id, aggregate_type, event_version)` (the only unique key on
`events` is the primary key `id`), so nothing rejects the loser.
Moreover, even when the insert does raise, `storeEvent`'s `catch` only
logs: the caller-visible error of the call is `none`, never a Conflict. -/
theorem c2_counterexample :
    versionsOf raceTwoAppends "order-1" "Order" = [1, 1] ∧
    ¬ ["aggregate_id", "aggregate_type", "event_version"] ∈
        uniqueConstraintsOn "events" ∧
    (storeEventCaught userInput noFail (some .uniqueViolation) emptyStore).2 = none := by
  exact ⟨rfl, by decide, rfl⟩

/-- Claim C2 amended: the `events` schema declares no uniqueness
constraint on `(aggregate_id, aggregate_type, version)`, so a concurrent
append that has already claimed the computed next version does **not**
cause the second insert to be rejected — both rows commit with the same
version; and `storeEvent` catches every storage error internally
(logging only), so no Conflict error is ever surfaced to the caller. -/
theorem c2_amended :
    (¬ ["aggregate_id", "aggregate_type", "event_version"] ∈
        uniqueConstraintsOn "events") ∧
    (∀ (s : Store) (aggId aggType idA idB etA etB : String) (dA dB mA mB : JVal),
      versionsOf
        (insertEvent
          (insertEvent s idA aggId aggType etA (readNextVersion s aggId aggType) dA mA)
          idB aggId aggType etB (readNextVersion s aggId aggType) dB mB)
        aggId aggType =
      versionsOf s aggId aggType ++
        [readNextVersion s aggId aggType, readNextVersion s aggId aggType]) ∧
    (∀ (inp : AppendInput) (fail : String → Bool) (e : Option DbError) (s : Store),
      (storeEventCaught inp fail e s).2 = none) := by
  refine ⟨by decide, ?_, ?_⟩
  · intro s aggId aggType idA idB etA etB dA dB mA mB
    rw [versionsOf_insertEvent, versionsOf_insertEvent]
    simp
  · intro inp fail e s
    cases e <;> rfl

/-! ## Supporting lemmas: circuit breaker runs -/

/-- Consecutive failures from CLOSED: once the post-increment failure
count reaches the threshold, the breaker is OPEN with
`nextAttempt = (time of last failure) + timeout`. -/
theorem failN_opens (ts : List Nat) (b : CircuitBreaker) (t : Nat)
    (hs : b.state = .closed)
    (hc : b.failureCount + (ts.length + 1) = b.failureThreshold) :
    (CircuitBreaker.failN b (ts ++ [t])).state = .opened ∧
    (CircuitBreaker.failN b (ts ++ [t])).nextAttempt = t + b.timeout := by
  induction ts generalizing b with
  | nil =>
    have h2 : b.failureThreshold ≤ b.failureCount + 1 := by simp at hc; omega
    simp [CircuitBreaker.failN, CircuitBreaker.call, CircuitBreaker.gate,
          CircuitBreaker.onFailure, hs, h2]
  | cons t0 ts ih =>
    have h2 : ¬ b.failureThreshold ≤ b.failureCount + 1 := by simp at hc; omega
    have hstep : (CircuitBreaker.call b t0 false).2 =
        { b with failureCount := b.failureCount + 1 } := by
      simp [CircuitBreaker.call, CircuitBreaker.gate, CircuitBreaker.onFailure, hs, h2]
    have hrw : CircuitBreaker.failN b ((t0 :: ts) ++ [t]) =
        CircuitBreaker.failN ((CircuitBreaker.call b t0 false).2) (ts ++ [t]) := rfl
    rw [hrw, hstep]
    exact ih _ (by simpa using hs) (by simp at hc ⊢; omega)

/-- Consecutive successes from HALF_OPEN: once the success count reaches
the threshold, the breaker is CLOSED with both counters zeroed. -/
theorem succN_closes (ts : List Nat) (b : CircuitBreaker) (t : Nat)
    (hs : b.state = .halfOpen)
    (hc : b.successCount + (ts.length + 1) = b.successThreshold) :
    (CircuitBreaker.succN b (ts ++ [t])).state = .closed ∧
    (CircuitBreaker.succN b (ts ++ [t])).failureCount = 0 ∧
    (CircuitBreaker.succN b (ts ++ [t])).successCount = 0 := by
  induction ts generalizing b with
  | nil =>
    have h2 : b.successThreshold ≤ b.successCount + 1 := by simp at hc; omega
    simp [CircuitBreaker.succN, CircuitBreaker.call, CircuitBreaker.gate,
          CircuitBreaker.onSuccess, hs, h2]
  | cons t0 ts ih =>
    have h2 : ¬ b.successThreshold ≤ b.successCount + 1 := by simp at hc; omega
    have hstep : (CircuitBreaker.call b t0 true).2 =
        { b with failureCount := 0, successCount := b.successCount + 1 } := by
      simp [CircuitBreaker.call, CircuitBreaker.gate, CircuitBreaker.onSuccess, hs, h2]
    have hrw : CircuitBreaker.succN b ((t0 :: ts) ++ [t]) =
        CircuitBreaker.succN ((CircuitBreaker.call b t0 true).2) (ts ++ [t]) := rfl
    rw [hrw, hstep]
    exact ih _ (by simpa using hs) (by simp at hc ⊢; omega)

/-! ## Claim C3 -/

/-- Claim C3: from CLOSED with a fresh failure count, `failureThreshold`
consecutive failures transition the breaker to OPEN with
`nextAttempt = now + timeout`; while OPEN, every call before
`nextAttempt` returns `(.rejected, b)` — the breaker is unchanged and the
wrapped operation is never invoked (the outcome is `.rejected` whatever
the operation would have done); the first call at or after `nextAttempt`
passes the gate with the state switched to HALF_OPEN and is actually
attempted (its outcome reflects the wrapped operation). -/
theorem c3_open_transition_and_rejection :
    (∀ (b : CircuitBreaker) (ts : List Nat) (t : Nat),
      b.state = .closed → b.failureCount = 0 → ts.length + 1 = b.failureThreshold →
      (CircuitBreaker.failN b (ts ++ [t])).state = .opened ∧
      (CircuitBreaker.failN b (ts ++ [t])).nextAttempt = t + b.timeout) ∧
    (∀ (b : CircuitBreaker) (now : Nat) (ok : Bool),
      b.state = .opened → now < b.nextAttempt →
      CircuitBreaker.call b now ok = (.rejected, b)) ∧
    (∀ (b : CircuitBreaker) (now : Nat) (ok : Bool),
      b.state = .opened → b.nextAttempt ≤ now →
      CircuitBreaker.gate b now =
        some { b with state := .halfOpen, successCount := 0 } ∧
      (CircuitBreaker.call b now ok).1 =
        (if ok then .succeeded else .failed)) := by
  refine ⟨?_, ?_, ?_⟩
  · intro b ts t hs hf hth
    exact failN_opens ts b t hs (by omega)
  · intro b now ok hs hlt
    simp [CircuitBreaker.call, CircuitBreaker.gate, hs, hlt]
  · intro b now ok hs hle
    have hnl : ¬ now < b.nextAttempt := not_lt.mpr hle
    constructor
    · simp [CircuitBreaker.gate, hs, hnl]
    · cases ok <;> simp [CircuitBreaker.call, CircuitBreaker.gate, hs, hnl]

/-- Witness for C3 at the default configuration: five failures at times
1..5 open the breaker with `nextAttempt = 5 + 60000`; at `now = 50 < 100`
an OPEN breaker rejects unchanged; at `now = 100 ≥ 100` the gate switches
to HALF_OPEN and the call is attempted. -/
theorem c3_witness :
    ((CircuitBreaker.failN (CircuitBreaker.init 0) ([1, 2, 3, 4] ++ [5])).state = .opened ∧
     (CircuitBreaker.failN (CircuitBreaker.init 0) ([1, 2, 3, 4] ++ [5])).nextAttempt =
       5 + (CircuitBreaker.init 0).timeout) ∧
    CircuitBreaker.call openBreaker 50 true = (.rejected, openBreaker) ∧
    (CircuitBreaker.gate openBreaker 100 =
       some { openBreaker with state := .halfOpen, successCount := 0 } ∧
     (CircuitBreaker.call openBreaker 100 false).1 =
       (if false then .succeeded else .failed)) :=
  ⟨c3_open_transition_and_rejection.1 (CircuitBreaker.init 0) [1, 2, 3, 4] 5
      rfl rfl (by decide),
   c3_open_transition_and_rejection.2.1 openBreaker 50 true rfl (by decide),
   c3_open_transition_and_rejection.2.2 openBreaker 100 false rfl (by decide)⟩

/-! ## Claim C4 -/

/-- Claim C4: in HALF_OPEN a single failed call transitions the breaker
immediately back to OPEN (no threshold) with
`nextAttempt = now + timeout`; and `successThreshold` consecutive
successful calls transition it to CLOSED with `failureCount` and
`successCount` both zero. -/
theorem c4_half_open_transitions :
    (∀ (b : CircuitBreaker) (t : Nat), b.state = .halfOpen →
      (CircuitBreaker.call b t false).1 = .failed ∧
      (CircuitBreaker.call b t false).2.state = .opened ∧
      (CircuitBreaker.call b t false).2.nextAttempt = t + b.timeout) ∧
    (∀ (b : CircuitBreaker) (ts : List Nat) (t : Nat),
      b.state = .halfOpen → b.successCount + (ts.length + 1) = b.successThreshold →
      (CircuitBreaker.succN b (ts ++ [t])).state = .closed ∧
      (CircuitBreaker.succN b (ts ++ [t])).failureCount = 0 ∧
      (CircuitBreaker.succN b (ts ++ [t])).successCount = 0) := by
  refine ⟨?_, ?_⟩
  · intro b t hs
    refine ⟨?_, ?_, ?_⟩ <;>
      simp [CircuitBreaker.call, CircuitBreaker.gate, CircuitBreaker.onFailure, hs]
  · intro b ts t hs hc
    exact succN_closes ts b t hs hc

/-- Witness for C4 at the default `successThreshold = 2`: one failure at
time 7 re-opens the breaker with `nextAttempt = 7 + 60000`; two
successes at times 3 and 4 close it with counters zeroed. -/
theorem c4_witness :
    ((CircuitBreaker.call halfOpenBreaker 7 false).1 = .failed ∧
     (CircuitBreaker.call halfOpenBreaker 7 false).2.state = .opened ∧
     (CircuitBreaker.call halfOpenBreaker 7 false).2.nextAttempt =
       7 + halfOpenBreaker.timeout) ∧
    ((CircuitBreaker.succN halfOpenBreaker ([3] ++ [4])).state = .closed ∧
     (CircuitBreaker.succN halfOpenBreaker ([3] ++ [4])).failureCount = 0 ∧
     (CircuitBreaker.succN halfOpenBreaker ([3] ++ [4])).successCount = 0) :=
  ⟨c4_half_open_transitions.1 halfOpenBreaker 7 rfl,
   c4_half_open_transitions.2 halfOpenBreaker [3] 4 rfl (by decide)⟩

/-! ## Claim C5 -/

/-- Claim C5: for every event processed, the appended event row is stored
regardless of projection failures — even if every projection fold fails —
and a failure while updating one projection never affects the rows of
another registered projection: any projection whose own update does not
fail ends with exactly the rows of the failure-free run.  (Each loop
iteration of `updateProjections` has its own `try/catch`, and the event
insert precedes the loop and is never rolled back; under the declared
schema the projection writes themselves never land at all, so the
snapshot rows of every projection coincide with the failure-free run's a
fortiori.) -/
theorem c5_projection_failures_isolated :
    ∀ (inp : AppendInput) (fail : String → Bool) (s : Store),
    (∃ r : EventRow, ∀ fl : String → Bool,
      (storeEvent inp fl s).events = s.events ++ [r]) ∧
    (∀ p ∈ registry, fail p.name = false →
      snapshotsOf p.name (storeEvent inp fail s) =
        snapshotsOf p.name (storeEvent inp noFail s)) := by
  intro inp fail s
  constructor
  · refine ⟨⟨inp.eventId, extractAggregateId inp.eventType inp.data,
      extractAggregateType inp.eventType, inp.eventType,
      readNextVersion s (extractAggregateId inp.eventType inp.data)
        (extractAggregateType inp.eventType),
      inp.data, storedMeta inp.metadata, s.nextSeq⟩, ?_⟩
    intro fl
    rw [storeEvent_unfold, updateProjections_noop]
    rfl
  · intro p _hp _hf
    unfold snapshotsOf
    rw [storeEvent_projections, storeEvent_projections]

/-- Witness for C5: with every projection update failing except
`order-summary`'s, the `order.created` event row is still appended and the
`order-summary` rows equal those of the failure-free run. -/
theorem c5_witness :
    (∃ r : EventRow, ∀ fl : String → Bool,
      (storeEvent orderInput fl emptyStore).events = emptyStore.events ++ [r]) ∧
    snapshotsOf "order-summary" (storeEvent orderInput failAllButOrderSummary emptyStore) =
      snapshotsOf "order-summary" (storeEvent orderInput noFail emptyStore) :=
  ⟨(c5_projection_failures_isolated orderInput failAll emptyStore).1,
   (c5_projection_failures_isolated orderInput failAllButOrderSummary emptyStore).2
     orderSummaryP (List.Mem.tail _ (List.Mem.head _)) rfl⟩

/-! ## Claim C10 -/

/-- Claim C10: `updateProjections` always saves a folded result under the
triggering event's aggregate id, while the `analytics` fold reads its
previous state from `('analytics', 'global')`; hence no event step whose
resolved aggregate id differs from `"global"` ever writes the
`('analytics', 'global')` row — it is unchanged by every such step. -/
theorem c10_analytics_global_never_written :
    ∀ (fail : String → Bool) (c : Clock) (et : String) (d : JVal)
      (eid aggId aggType : String) (s : Store), aggId ≠ "global" →
    findRow (updateProjections fail c et d eid aggId aggType s).projections
        "analytics" "global" =
      findRow s.projections "analytics" "global" := by
  intro fail c et d eid aggId aggType s _hga
  rw [updateProjections_noop]

/-- Witness for C10: an `order.created` event (resolved aggregate
`"order-1"`) leaves the `('analytics', 'global')` row exactly as it was
on the empty store. -/
theorem c10_witness :
    findRow (updateProjections noFail (clockAt "T1") "order.created" orderPayload
        "e2" "order-1" "Order" emptyStore).projections "analytics" "global" =
      findRow emptyStore.projections "analytics" "global" :=
  c10_analytics_global_never_written noFail (clockAt "T1") "order.created"
    orderPayload "e2" "order-1" "Order" emptyStore (by decide)

/-! ## Claim C8 -/

/-- Claim C8 is false on this code: the `analytics` fold is not a pure
function of `(eventType, payload, aggregateId, previous snapshot)` — at
identical claimed inputs (empty store, so the previous snapshot and the
`('analytics', 'global')` row are both absent) it produces different
outputs at two different wall-clock instants, because it stamps
`lastUpdated: new Date().toISOString()` into the snapshot. -/
theorem c8_counterexample :
    analyticsProject "user.created" (jobj []) "user-7" emptyStore (clockAt "T1") ≠
      analyticsProject "user.created" (jobj []) "user-7" emptyStore (clockAt "T2") := by
  intro h
  have h1 : jsStr (jgetOpt (analyticsProject "user.created" (jobj []) "user-7"
      emptyStore (clockAt "T1")) "lastUpdated") = "T1" := rfl
  rw [h] at h1
  have h2 : jsStr (jgetOpt (analyticsProject "user.created" (jobj []) "user-7"
      emptyStore (clockAt "T2")) "lastUpdated") = "T2" := rfl
  rw [h2] at h1
  exact absurd h1 (by decide)

/-- Claim C8 amended: not every registered fold is pure in the claimed
inputs — the `analytics` fold (and the `user-summary` fold, when the
payload lacks a timestamp) reads the wall clock.  The `order-summary`
fold is deterministic and pure: its output is a function of
`(eventType, payload, aggregateId, previous snapshot)` alone —
independent of the clock and of every other row of the store. -/
theorem c8_amended :
    ∀ (et : String) (d : JVal) (aggId : String) (s s' : Store) (c c' : Clock),
      getProjection s "order-summary" aggId = getProjection s' "order-summary" aggId →
      orderSummaryProject et d aggId s c = orderSummaryProject et d aggId s' c' :=
  fun et d aggId s s' c c' h => orderSummaryProject_frame et d aggId s s' c c' h

/-- Witness for C8 (amended): concretely, the `order-summary` fold of an
`order.created` event is identical at two different wall-clock instants. -/
theorem c8_witness :
    orderSummaryProject "order.created" orderPayload "order-1" emptyStore (clockAt "T1") =
      orderSummaryProject "order.created" orderPayload "order-1" emptyStore (clockAt "T2") :=
  c8_amended "order.created" orderPayload "order-1" emptyStore emptyStore
    (clockAt "T1") (clockAt "T2") rfl

/-! ## Claim C9 -/

/-- Claim C9 is false on this code: the listing query has no `ORDER BY`,
so rows come back in table order.  On a store whose projection-`"p"` rows
were written for aggregate `"b"` first and `"a"` second, the route
returns aggregate ids `["b", "a"]`, which is not ascending. -/
theorem c9_counterexample :
    (listProjections "p" twoRowStore).map (fun r => r.aggregateId) = ["b", "a"] ∧
    ¬ List.Sorted (· ≤ ·)
        ((listProjections "p" twoRowStore).map (fun r => r.aggregateId)) := by
  refine ⟨rfl, ?_⟩
  intro h
  rw [show (listProjections "p" twoRowStore).map (fun r => r.aggregateId) =
      ["b", "a"] from rfl] at h
  have hba : ("b" : String) ≤ "a" :=
    (List.sorted_cons.mp h).1 "a" (by simp)
  rw [String.le_iff_toList_le] at hba
  exact absurd hba (by decide)

/-- Claim C9 amended: `ListSnapshots(projectionName)` returns exactly the
snapshots of that projection — a row is returned iff it is stored with
that projection name — but in table order (the `SELECT` has no
`ORDER BY`), not sorted by aggregate id. -/
theorem c9_amended :
    ∀ (name : String) (s : Store) (r : ProjRow),
      (r ∈ listProjections name s ↔ r ∈ s.projections ∧ r.projectionName = name) ∧
      (listProjections name s).Sublist s.projections := by
  intro name s r
  constructor
  · rw [listProjections, List.mem_filter]
    simp
  · exact List.filter_sublist s.projections


/-! ## Claim C6 -/

/-- Claim C6 states the upsert that `saveProjection`'s own SQL specifies
(`DO UPDATE SET data = $4, version = projections.version + 1,
last_event_id = $5`), but the code defeats it: the declared schema has no
unique index or constraint on `(projection_name, aggregate_id)` — only
the plain `idx_projections_name_aggregate` — so PostgreSQL rejects the
statement (42P10) on every execution, the error is swallowed by
`saveProjection`'s `catch`, and no snapshot row is ever created or
updated.  At the failing input — a `user.created` event folded into
`user-summary` on the empty store — the fold returns a non-null object,
yet the store is unchanged and the `("user-summary", "user-7")` row does
not exist; in general `saveProjection` is the identity on the store. -/
theorem c6_no_snapshot_written :
    (userSummaryProject "user.created" userPayload "user-7" emptyStore
        (clockAt "T1")).isSome = true ∧
    ¬ ["projection_name", "aggregate_id"] ∈ uniqueConstraintsOn "projections" ∧
    projStep noFail userSummaryP (clockAt "T1") "user.created" userPayload "e1"
        "user-7" emptyStore = emptyStore ∧
    findRow (projStep noFail userSummaryP (clockAt "T1") "user.created"
        userPayload "e1" "user-7" emptyStore).projections "user-summary" "user-7" =
      none ∧
    (∀ (name aggId : String) (v : JVal) (eid : String) (s : Store),
      saveProjection name aggId v eid s = s) :=
  ⟨rfl, by decide,
   projStep_noop noFail userSummaryP (clockAt "T1") "user.created" userPayload
     "e1" "user-7" emptyStore,
   rfl,
   fun name aggId v eid s => saveProjection_noop name aggId v eid s⟩

/-! ## Claim C7 -/

/-- Claim C7: for every registered projection, replay with
`fromSequence = 1` applied to a cleared snapshot store produces exactly
the same snapshots, bit for bit and for every aggregate, as the
incremental per-event `updateProjections` calls in original append
order.  On this code the law holds degenerately: the declared schema
gives `saveProjection`'s `ON CONFLICT` no arbiter, so neither the
incremental path nor the replay path ever writes a snapshot row — both
sides of the law are the empty set of snapshots, whatever the events and
whatever the wall-clock instants. -/
theorem c7_replay_roundtrip :
    ∀ p ∈ registry, ∀ (L : List AppendInput) (c : Clock),
      snapshotsOf p.name
          (replayProjection p 1 c (clearSnapshots (runAppends L))) =
        snapshotsOf p.name (runAppends L) := by
  intro p _hp L c
  unfold snapshotsOf
  rw [replayProjection_noop,
      show (clearSnapshots (runAppends L)).projections = ([] : List ProjRow)
        from rfl,
      show (runAppends L).projections = ([] : List ProjRow)
        from run_projections L emptyStore]

/-- Witness for C7: replaying `analytics` at wall-clock `T2` over the
cleared store left by one `user.created` append observed at `T1` yields
exactly the incremental run's snapshots (both empty). -/
theorem c7_witness :
    snapshotsOf analyticsP.name
        (replayProjection analyticsP 1 (clockAt "T2")
          (clearSnapshots (runAppends [userInput]))) =
      snapshotsOf analyticsP.name (runAppends [userInput]) :=
  c7_replay_roundtrip analyticsP
    (List.Mem.tail _ (List.Mem.tail _ (List.Mem.head _))) [userInput]
    (clockAt "T2")
